import Mathlib

/-!
Verification of the session lifecycle and cleanup subsystem of the
AnythingLLM SSO service.

The development shallowly embeds the relevant JavaScript source:

* `src/workspace.js` — the retry wrapper `retryApiCall`, the persistent
  session store (`loadSessions`, `saveSessions`, `addSession`,
  `removeSession`, `getAllSessions`), the remote-resource helpers
  (`createUser`, `deleteUser`, `deleteWorkspace`) and the cleanup
  reconciler `cleanupSessions`;
* `src/routes.js` — the background provisioning `setupFunction` of the
  root route.

Asynchronous I/O is modelled by passing the outcomes of the remote HTTP
requests (and the state of the backing `data/sessions.json` file) as
explicit parameters; each embedded function additionally returns the list
of HTTP requests it issued, so that "a deletion was attempted" and "no
request beyond the mode check was issued" become provable statements.
-/

namespace Sso

/-- Outcome of calling a JavaScript async function: a resolved value, a
thrown (rejected) error, or `undefined` when the function body falls off
the end without returning. -/
inductive JsResult (ε α : Type) where
  | ok : α → JsResult ε α
  | thrown : ε → JsResult ε α
  | undef : JsResult ε α
deriving Repr, DecidableEq

/-- Trace of one run of `retryApiCall`: the overall result, how many times
the wrapped operation was invoked, and the list of backoff waits (in
milliseconds) performed between attempts. -/
structure RetryTrace (ε α : Type) where
  result : JsResult ε α
  calls : Nat
  waits : List Nat
deriving Repr, DecidableEq

/-- The loop of `retryApiCall` from `src/workspace.js`:

    for (let i = 0; i < maxRetries; i++) {
      try { return await apiCall(); }
      catch (error) {
        if (i === maxRetries - 1) throw error;
        await sleep(delay * (i + 1));
      }
    }

`op j` is the outcome of the `(j+1)`-th invocation of `apiCall`; `i` is
the current loop index and `fuel` the number of iterations that remain
(`maxRetries - i`). -/
def retryApiCallFrom (op : Nat → Except ε α) (delay : Nat) : Nat → Nat → RetryTrace ε α
  | _, 0 => ⟨JsResult.undef, 0, []⟩
  | i, fuel + 1 =>
    match op i with
    | Except.ok a => ⟨JsResult.ok a, 1, []⟩
    | Except.error e =>
      if fuel = 0 then ⟨JsResult.thrown e, 1, []⟩
      else
        let t := retryApiCallFrom op delay (i + 1) fuel
        ⟨t.result, t.calls + 1, delay * (i + 1) :: t.waits⟩

/-- `retryApiCall(apiCall, maxRetries, delay)` from `src/workspace.js`.
`maxRetries` is an integer: a non-positive value makes the `for` loop body
never execute, so the function resolves to `undefined`. -/
def retryApiCall (op : Nat → Except ε α) (maxRetries : Int) (delay : Nat) : RetryTrace ε α :=
  retryApiCallFrom op delay 0 maxRetries.toNat

/-- Test operation: fails on the first two invocations, then succeeds. -/
def failTwice : Nat → Except String Nat :=
  fun i => if i < 2 then Except.error "boom" else Except.ok 42

theorem retryApiCallFrom_calls_le (op : Nat → Except ε α) (delay : Nat) :
    ∀ fuel i, (retryApiCallFrom op delay i fuel).calls ≤ fuel := by
  intro fuel
  induction fuel with
  | zero => intro i; simp [retryApiCallFrom]
  | succ n ih =>
    intro i
    simp only [retryApiCallFrom]
    cases op i with
    | ok a => simp
    | error e =>
      by_cases h : n = 0
      · simp [h]
      · simpa [h] using Nat.succ_le_succ (ih (i + 1))

theorem retryApiCallFrom_calls_pos (op : Nat → Except ε α) (delay : Nat)
    (fuel i : Nat) (h : 0 < fuel) :
    0 < (retryApiCallFrom op delay i fuel).calls := by
  cases fuel with
  | zero => exact absurd h (by simp)
  | succ n =>
    simp only [retryApiCallFrom]
    cases op i with
    | ok a => simp
    | error e =>
      by_cases hn : n = 0
      · simp [hn]
      · simp [hn]

theorem retryApiCallFrom_waits (op : Nat → Except ε α) (delay : Nat) :
    ∀ fuel i, (retryApiCallFrom op delay i fuel).waits =
      (List.range ((retryApiCallFrom op delay i fuel).calls - 1)).map
        (fun j => delay * (i + j + 1)) := by
  intro fuel
  induction fuel with
  | zero => intro i; simp [retryApiCallFrom]
  | succ n ih =>
    intro i
    simp only [retryApiCallFrom]
    cases op i with
    | ok a => simp
    | error e =>
      by_cases hn : n = 0
      · simp [hn]
      · have hpos : 0 < (retryApiCallFrom op delay (i + 1) n).calls :=
          retryApiCallFrom_calls_pos op delay n (i + 1) (Nat.pos_of_ne_zero hn)
        obtain ⟨c, hc⟩ : ∃ c, (retryApiCallFrom op delay (i + 1) n).calls = c + 1 :=
          ⟨(retryApiCallFrom op delay (i + 1) n).calls - 1, by omega⟩
        simp only [hn, if_false]
        simp only [ih (i + 1), hc]
        simp only [Nat.add_sub_cancel]
        rw [List.range_succ_eq_map]
        simp only [List.map_cons, List.map_map]
        rw [List.cons_eq_cons]
        refine ⟨by simp, ?_⟩
        apply List.map_congr_left
        intro j _
        simp only [Function.comp_apply]
        congr 1
        omega

theorem retryApiCallFrom_allFail (op : Nat → Except ε α) (delay : Nat) :
    ∀ fuel i, 0 < fuel → (∀ j, j < fuel → ∃ e, op (i + j) = Except.error e) →
      (retryApiCallFrom op delay i fuel).calls = fuel ∧
      ∀ e, op (i + fuel - 1) = Except.error e →
        (retryApiCallFrom op delay i fuel).result = JsResult.thrown e := by
  intro fuel
  induction fuel with
  | zero => intro i h; exact absurd h (by simp)
  | succ n ih =>
    intro i _ hall
    obtain ⟨e0, he0⟩ := hall 0 (Nat.succ_pos n)
    simp only [Nat.add_zero] at he0
    by_cases hn : n = 0
    · subst hn
      constructor
      · simp [retryApiCallFrom, he0]
      · intro e he
        simp only [Nat.add_sub_cancel] at he
        simp [retryApiCallFrom, he]
    · have hrest : ∀ j, j < n → ∃ e, op (i + 1 + j) = Except.error e := by
        intro j hj
        have := hall (j + 1) (by omega)
        simpa [Nat.add_assoc, Nat.add_comm 1 j] using this
      obtain ⟨ihc, ihr⟩ := ih (i + 1) (Nat.pos_of_ne_zero hn) hrest
      constructor
      · simp only [retryApiCallFrom]
        rw [he0]
        simp [hn, ihc]
      · intro e he
        have he' : op (i + 1 + n - 1) = Except.error e := by
          have harith : i + 1 + n - 1 = i + (n + 1) - 1 := by omega
          rw [harith]; exact he
        simp only [retryApiCallFrom]
        rw [he0]
        simp [hn, ihr e he']

/-- C5: `retryApiCall` invokes the operation at most `maxAttempts` times; the
backoff wait after failed attempt number `n` (1-based) is `delay * n`; when
every attempt fails it re-raises the error of the final attempt after exactly
`maxAttempts` invocations; and on an operation that fails twice then succeeds,
with `maxAttempts = 3`, it returns the success value after exactly 3
invocations (with waits of `delay * 1` and `delay * 2` in between). -/
theorem retryApiCall_spec (op : Nat → Except ε α) (m : Int) (delay : Nat)
    (hm : 0 < m) :
    (retryApiCall op m delay).calls ≤ m.toNat ∧
    (retryApiCall op m delay).waits =
      (List.range ((retryApiCall op m delay).calls - 1)).map (fun j => delay * (j + 1)) ∧
    ((∀ j, j < m.toNat → ∃ e, op j = Except.error e) →
      (retryApiCall op m delay).calls = m.toNat ∧
      ∀ e, op (m.toNat - 1) = Except.error e →
        (retryApiCall op m delay).result = JsResult.thrown e) ∧
    retryApiCall failTwice 3 1000 = ⟨JsResult.ok 42, 3, [1000, 2000]⟩ := by
  refine ⟨retryApiCallFrom_calls_le op delay m.toNat 0, ?_, ?_, by rfl⟩
  · have h := retryApiCallFrom_waits op delay m.toNat 0
    simpa [retryApiCall] using h
  · intro hall
    have hpos : 0 < m.toNat := by omega
    have h := retryApiCallFrom_allFail op delay m.toNat 0 hpos
      (by intro j hj; simpa using hall j hj)
    exact ⟨h.1, by intro e he; exact h.2 e (by simpa using he)⟩

theorem retryApiCall_spec_witness :
    retryApiCall failTwice 3 1000 = ⟨JsResult.ok 42, 3, [1000, 2000]⟩ :=
  (retryApiCall_spec failTwice 3 1000 (by decide)).2.2.2

/-- C10: with `maxRetries ≤ 0` the attempt loop of `retryApiCall` never
executes its body, so the call resolves to `undefined` having invoked the
operation zero times and performed no waits (and without raising). -/
theorem retryApiCall_nonpos (op : Nat → Except ε α) (m : Int) (delay : Nat)
    (hm : m ≤ 0) :
    retryApiCall op m delay = ⟨JsResult.undef, 0, []⟩ := by
  have h : m.toNat = 0 := Int.toNat_of_nonpos hm
  simp [retryApiCall, h, retryApiCallFrom]

theorem retryApiCall_nonpos_witness :
    retryApiCall failTwice 0 1000 = ⟨JsResult.undef, 0, []⟩ :=
  retryApiCall_nonpos failTwice 0 1000 (by decide)

/-- One HTTP request of the subsystem, as issued against the remote
AnythingLLM API. -/
inductive HttpCall where
  | modeCheck
  | userPost
  | userDelete (userId : String)
  | workspaceDelete (slug : String)
deriving Repr, DecidableEq

/-- The same `retryApiCall` loop as `retryApiCallFrom`, instrumented with the
HTTP requests the wrapped operation issues: `op j` returns both the requests
of the `(j+1)`-th attempt and that attempt's outcome; the run's full request
list is returned alongside the retry trace. -/
def retryApiCallTFrom (op : Nat → List HttpCall × Except ε α) (delay : Nat) :
    Nat → Nat → RetryTrace ε α × List HttpCall
  | _, 0 => (⟨JsResult.undef, 0, []⟩, [])
  | i, fuel + 1 =>
    match (op i).2 with
    | Except.ok a => (⟨JsResult.ok a, 1, []⟩, (op i).1)
    | Except.error e =>
      if fuel = 0 then (⟨JsResult.thrown e, 1, []⟩, (op i).1)
      else
        let t := retryApiCallTFrom op delay (i + 1) fuel
        (⟨t.1.result, t.1.calls + 1, delay * (i + 1) :: t.1.waits⟩, (op i).1 ++ t.2)

theorem flatten_replicate_single (n : Nat) (x : HttpCall) :
    (List.replicate n [x]).flatten = List.replicate n x := by
  induction n with
  | zero => rfl
  | succ k ih => simp [List.replicate_succ, ih]

theorem retryApiCallTFrom_const_error {ε α : Type}
    (op : Nat → List HttpCall × Except ε α) (tr : List HttpCall) (c : ε)
    (delay : Nat) (h : ∀ j, op j = (tr, Except.error c)) :
    ∀ fuel i, 0 < fuel →
      retryApiCallTFrom op delay i fuel =
        (⟨JsResult.thrown c, fuel,
            (List.range (fuel - 1)).map (fun j => delay * (i + j + 1))⟩,
          (List.replicate fuel tr).flatten) := by
  intro fuel
  induction fuel with
  | zero => intro i hf; exact absurd hf (by simp)
  | succ n ih =>
    intro i _
    by_cases hn : n = 0
    · subst hn
      simp only [retryApiCallTFrom, h i]
      simp
    · have hrec := ih (i + 1) (Nat.pos_of_ne_zero hn)
      simp only [retryApiCallTFrom, h i]
      simp only [hn, if_false, hrec]
      refine Prod.ext ?_ ?_
      · simp only []
        refine congrArg (RetryTrace.mk (JsResult.thrown c) (n + 1)) ?_
        obtain ⟨k, hk⟩ : ∃ k, n = k + 1 := ⟨n - 1, by omega⟩
        subst hk
        simp only [Nat.add_sub_cancel]
        rw [List.range_succ_eq_map]
        simp only [List.map_cons, List.map_map]
        rw [List.cons_eq_cons]
        refine ⟨by simp, ?_⟩
        apply List.map_congr_left
        intro j _
        simp only [Function.comp_apply]
        congr 1
        omega
      · simp [List.replicate_succ]

/-- Error message the operation inside `createUser` throws when multi-user
mode is reported disabled. -/
def capabilityErrorMessage : String :=
  "Cannot create user: Multi-user mode is not enabled in AnythingLLM."

/-- Body of the response to `POST /api/v1/admin/users/new`: the created user
id (when `response.data.user.id` is present) and the optional
`response.data.error` field. -/
structure CreateUserResp where
  userId : Option String
  error : Option String
deriving Repr, DecidableEq

/-- One attempt of the operation `createUser` passes to `retryApiCall`:
check multi-user mode (one GET, never raising — `modeOk` is its boolean
answer), throw the capability error when disabled, otherwise POST the new
user (`post` is that request's outcome) and extract the id, throwing when
the response carries no id. -/
def createUserAttempt (modeOk : Bool) (post : Except String CreateUserResp) :
    List HttpCall × Except String String :=
  if modeOk then
    ([HttpCall.modeCheck, HttpCall.userPost],
      match post with
      | Except.error e => Except.error e
      | Except.ok resp =>
        match resp.userId with
        | some uid => Except.ok uid
        | none => Except.error (resp.error.getD "Failed to create user: No user ID returned"))
  else
    ([HttpCall.modeCheck], Except.error capabilityErrorMessage)

/-- `createUser(username)` from `src/workspace.js`: the attempt above wrapped
in `retryApiCall`. `modeOk j` and `post j` are the remote answers seen by the
`(j+1)`-th attempt. -/
def createUser (modeOk : Nat → Bool) (post : Nat → Except String CreateUserResp)
    (maxRetries : Int) (delay : Nat) : RetryTrace String String × List HttpCall :=
  retryApiCallTFrom (fun i => createUserAttempt (modeOk i) (post i)) delay 0 maxRetries.toNat

/-- C4 (counterexample): with multi-user mode disabled, `createUser` with the
default `maxRetries = 3` invokes its operation three times — waiting 1000 ms
and 2000 ms in between — and issues three mode-check HTTP requests, the
capability error being surfaced only after the final attempt; so the
capability failure is retried rather than surfaced immediately after a single
mode check. -/
theorem createUser_capability_is_retried :
    createUser (fun _ => false) (fun _ => Except.error "unused") 3 1000 =
      (⟨JsResult.thrown capabilityErrorMessage, 3, [1000, 2000]⟩,
        [HttpCall.modeCheck, HttpCall.modeCheck, HttpCall.modeCheck]) := by
  rfl

/-- C4 (amended): when multi-user mode is disabled, `createUser` fails with
the capability error, but the failing operation is retried like any other
wrapped call: with `maxRetries = m > 0` it is invoked exactly `m` times, each
attempt issues exactly one mode-check HTTP request and no further request,
the usual linear backoff waits occur between attempts, and the capability
error is surfaced after the final attempt. -/
theorem createUser_capability_spec (post : Nat → Except String CreateUserResp)
    (m : Int) (delay : Nat) (hm : 0 < m) :
    createUser (fun _ => false) post m delay =
      (⟨JsResult.thrown capabilityErrorMessage, m.toNat,
          (List.range (m.toNat - 1)).map (fun j => delay * (j + 1))⟩,
        List.replicate m.toNat HttpCall.modeCheck) := by
  have h : ∀ j, (fun i => createUserAttempt false (post i)) j =
      ([HttpCall.modeCheck], Except.error capabilityErrorMessage) := fun j => rfl
  have hc := retryApiCallTFrom_const_error (fun i => createUserAttempt false (post i))
    [HttpCall.modeCheck] capabilityErrorMessage delay h m.toNat 0 (by omega)
  unfold createUser
  rw [hc, flatten_replicate_single]
  refine Prod.ext ?_ rfl
  simp only []
  refine congrArg (RetryTrace.mk (JsResult.thrown capabilityErrorMessage) m.toNat) ?_
  apply List.map_congr_left
  intro j _
  congr 1
  omega

theorem createUser_capability_spec_witness :
    createUser (fun _ => false) (fun _ => Except.error "unused") 3 1000 =
      (⟨JsResult.thrown capabilityErrorMessage, (3 : Int).toNat,
          (List.range ((3 : Int).toNat - 1)).map (fun j => 1000 * (j + 1))⟩,
        List.replicate (3 : Int).toNat HttpCall.modeCheck) :=
  createUser_capability_spec (fun _ => Except.error "unused") 3 1000 (by decide)

/-- `deleteUser(userId)` from `src/workspace.js`: issues one DELETE request
(whose outcome is `remote`) and converts its result to a boolean — `true` on
success, `false` on any error — never raising. -/
def deleteUser (userId : String) (remote : Except String Unit) :
    List HttpCall × Bool :=
  ([HttpCall.userDelete userId],
    match remote with
    | Except.ok _ => true
    | Except.error _ => false)

/-- `deleteWorkspace(workspaceSlug)` from `src/workspace.js`: issues one
DELETE request and converts its result to a boolean, never raising. -/
def deleteWorkspace (slug : String) (remote : Except String Unit) :
    List HttpCall × Bool :=
  ([HttpCall.workspaceDelete slug],
    match remote with
    | Except.ok _ => true
    | Except.error _ => false)

/-- C6: `deleteUser` and `deleteWorkspace` each return a boolean success
indicator — every error of the remote deletion call becomes `false`, success
becomes `true`, nothing is raised (their result type is a plain boolean) —
and each issues exactly one HTTP request whatever the outcome: neither is
wrapped in the retry mechanism. -/
theorem delete_helpers_spec (userId slug e : String) (u : Unit)
    (r r' : Except String Unit) :
    (deleteUser userId (Except.error e)).2 = false ∧
    (deleteUser userId (Except.ok u)).2 = true ∧
    (deleteWorkspace slug (Except.error e)).2 = false ∧
    (deleteWorkspace slug (Except.ok u)).2 = true ∧
    (deleteUser userId r).1 = [HttpCall.userDelete userId] ∧
    (deleteWorkspace slug r').1 = [HttpCall.workspaceDelete slug] :=
  ⟨rfl, rfl, rfl, rfl, rfl, rfl⟩

/-- A stored session record: one value of the JSON object persisted in
`data/sessions.json`. -/
structure SessionRecord where
  userId : String
  workspaceSlug : String
  createdAt : String
deriving Repr, DecidableEq

/-- The persisted sessions object: key-value pairs in insertion order, as a
JavaScript object holds them. -/
abbrev SessionMap := List (String × SessionRecord)

/-- Property write `sessions[k] = v` on a JavaScript object: replaces the
value under an existing key in place, otherwise appends the new key at the
end. -/
def objSet (m : SessionMap) (k : String) (v : SessionRecord) : SessionMap :=
  if m.any (fun p => p.1 == k) then
    m.map (fun p => if p.1 == k then (k, v) else p)
  else
    m ++ [(k, v)]

/-- Property delete `delete sessions[k]` on a JavaScript object. -/
def objDelete (m : SessionMap) (k : String) : SessionMap :=
  m.filter (fun p => ! (p.1 == k))

/-- Property read `sessions[k]` on a JavaScript object. -/
def objGet (m : SessionMap) (k : String) : Option SessionRecord :=
  match m with
  | [] => none
  | p :: rest => if p.1 == k then some p.2 else objGet rest k

/-- State of the backing file `data/sessions.json` as `loadSessions`
distinguishes it: missing (`ENOENT`), unreadable (any other read error),
unparseable (`JSON.parse` throws), or holding a parsed sessions object. -/
inductive FileState where
  | absent
  | unreadable
  | unparseable
  | stored (sessions : SessionMap)
deriving Repr, DecidableEq

/-- `loadSessions()` from `src/workspace.js`: returns the parsed sessions
object; a missing file (`ENOENT`) and every other read or parse error are
caught and degraded to the empty object — the function never raises. -/
def loadSessions : FileState → SessionMap
  | FileState.absent => []
  | FileState.unreadable => []
  | FileState.unparseable => []
  | FileState.stored m => m

/-- `saveSessions(sessions)` from `src/workspace.js`: overwrites the backing
file with the full session object. -/
def saveSessions (m : SessionMap) : FileState :=
  FileState.stored m

/-- `addSession(sessionId, userId, workspaceSlug)` from `src/workspace.js`:
load, insert the new record stamped with the current time `now`, save. -/
def addSession (now : String) (st : FileState)
    (sessionId userId workspaceSlug : String) : FileState :=
  saveSessions (objSet (loadSessions st) sessionId ⟨userId, workspaceSlug, now⟩)

/-- `removeSession(sessionId)` from `src/workspace.js`: load, delete the
record, save. -/
def removeSession (st : FileState) (sessionId : String) : FileState :=
  saveSessions (objDelete (loadSessions st) sessionId)

/-- `getAllSessions()` from `src/workspace.js`. -/
def getAllSessions (st : FileState) : SessionMap :=
  loadSessions st

theorem objGet_map_set (m : SessionMap) (k : String) (v : SessionRecord)
    (h : m.any (fun p => p.1 == k) = true) :
    objGet (m.map (fun p => if p.1 == k then (k, v) else p)) k = some v := by
  induction m with
  | nil => simp at h
  | cons p rest ih =>
    simp only [List.any_cons, Bool.or_eq_true] at h
    by_cases hp : (p.1 == k) = true
    · simp [objGet, hp]
    · have h' : rest.any (fun p => p.1 == k) = true := by
        rcases h with h | h
        · exact absurd h hp
        · exact h
      simp only [List.map_cons, if_neg hp]
      simpa [objGet, hp] using ih h'

theorem objGet_append_new (m : SessionMap) (k : String) (v : SessionRecord)
    (h : m.any (fun p => p.1 == k) = false) :
    objGet (m ++ [(k, v)]) k = some v := by
  induction m with
  | nil => simp [objGet]
  | cons p rest ih =>
    simp only [List.any_cons, Bool.or_eq_false_iff] at h
    simpa [objGet, h.1] using ih h.2

theorem objGet_objSet (m : SessionMap) (k : String) (v : SessionRecord) :
    objGet (objSet m k v) k = some v := by
  unfold objSet
  by_cases h : m.any (fun p => p.1 == k) = true
  · rw [if_pos h]
    exact objGet_map_set m k v h
  · have h' : m.any (fun p => p.1 == k) = false := Bool.eq_false_iff.mpr h
    rw [if_neg h]
    exact objGet_append_new m k v h'

theorem objGet_objDelete_self (m : SessionMap) (k : String) :
    objGet (objDelete m k) k = none := by
  induction m with
  | nil => rfl
  | cons p rest ih =>
    by_cases hp : (p.1 == k) = true
    · simpa [objDelete, hp] using ih
    · have hp' : (p.1 == k) = false := by simpa using hp
      simpa [objDelete, objGet, hp'] using ih

/-- C9: when the backing file does not exist, `loadSessions` returns the
empty collection; an unreadable or unparseable file is likewise degraded to
the empty collection rather than propagated (the embedded `loadSessions` is
total — no error outcome exists). -/
theorem loadSessions_degrades :
    loadSessions FileState.absent = [] ∧
    loadSessions FileState.unreadable = [] ∧
    loadSessions FileState.unparseable = [] :=
  ⟨rfl, rfl, rfl⟩

/-- C8: round-trip through the Store — after `addSession` with user id `u`
and workspace slug `w` under session id `id`, loading yields under key `id`
a record whose `userId` is `u` and whose `workspaceSlug` is `w` (stamped
with the insertion time). -/
theorem addSession_roundTrip (st : FileState) (id u w now : String) :
    objGet (loadSessions (addSession now st id u w)) id =
      some ⟨u, w, now⟩ := by
  simpa [addSession, saveSessions, loadSessions] using
    objGet_objSet (loadSessions st) id ⟨u, w, now⟩

/-- Outcomes of the remote operations one provisioning run performs, one per
step of the setup function in `src/routes.js` (the results of
`workspace.createUser`, `workspace.createWorkspace`,
`workspace.addDocumentsToWorkspace`, `workspace.addUserToWorkspace` and
`workspace.getSSOToken` for this run), together with the outcomes the remote
API would give the compensating deletion requests. -/
structure SetupEnv where
  createUserResult : Except String String
  createWorkspaceResult : Except String String
  addDocumentsResult : Except String Unit
  addUserResult : Except String Unit
  ssoTokenResult : Except String (String × String)
  remoteUserDelete : String → Except String Unit
  remoteWorkspaceDelete : String → Except String Unit

/-- What the setup function surfaces to the visitor: the success page for a
provisioned `(userId, workspaceSlug)` pair, or the error page naming the
failing step and the original error message. -/
inductive SetupOutcome where
  | success (userId workspaceSlug : String)
  | failure (errorStep errorMessage : String)
deriving Repr, DecidableEq

/-- Result of one run of the setup function: the surfaced outcome, the final
state of the session store file, the list of store states produced by the
run's store writes (in order), and the deletion HTTP requests it issued. -/
structure SetupResult where
  outcome : SetupOutcome
  finalState : FileState
  storeWrites : List FileState
  httpDeletes : List HttpCall
deriving Repr, DecidableEq

/-- The catch block of the setup function in `src/routes.js`: best-effort
compensation — `deleteWorkspace` if a workspace slug was obtained, then
`deleteUser` if a user id was obtained, each independent of the other's
outcome — followed by `removeSession`, surfacing the failing step and the
original error (compensation results are only logged). -/
def setupFailure (env : SetupEnv) (sessionId errorStep errorMessage : String)
    (userId workspaceSlug : Option String) (st : FileState) : SetupResult :=
  let wsCalls :=
    match workspaceSlug with
    | some slug => (deleteWorkspace slug (env.remoteWorkspaceDelete slug)).1
    | none => []
  let userCalls :=
    match userId with
    | some uid => (deleteUser uid (env.remoteUserDelete uid)).1
    | none => []
  let st' := removeSession st sessionId
  { outcome := SetupOutcome.failure errorStep errorMessage,
    finalState := st',
    storeWrites := [st'],
    httpDeletes := wsCalls ++ userCalls }

/-- The background setup function of the root route in `src/routes.js`: runs
the provisioning steps strictly in order (create user, create workspace, add
documents, add user to workspace, settle, get SSO token); on full success
persists the session record via `addSession` — the run's only store write —
and on failure at any step runs `setupFailure`. `now` is the timestamp
recorded with the committed record. -/
def setupFunction (env : SetupEnv) (sessionId now : String) (st : FileState) :
    SetupResult :=
  match env.createUserResult with
  | Except.error e => setupFailure env sessionId "Creating user" e none none st
  | Except.ok userId =>
    match env.createWorkspaceResult with
    | Except.error e =>
      setupFailure env sessionId "Creating workspace" e (some userId) none st
    | Except.ok workspaceSlug =>
      match env.addDocumentsResult with
      | Except.error e =>
        setupFailure env sessionId "Adding documents to workspace" e
          (some userId) (some workspaceSlug) st
      | Except.ok _ =>
        match env.addUserResult with
        | Except.error e =>
          setupFailure env sessionId "Adding user to workspace" e
            (some userId) (some workspaceSlug) st
        | Except.ok _ =>
          match env.ssoTokenResult with
          | Except.error e =>
            setupFailure env sessionId "Getting SSO token" e
              (some userId) (some workspaceSlug) st
          | Except.ok _ =>
            let st' := addSession now st sessionId userId workspaceSlug
            { outcome := SetupOutcome.success userId workspaceSlug,
              finalState := st',
              storeWrites := [st'],
              httpDeletes := [] }

/-- The same environment with the remote outcomes of the compensating
deletions replaced. -/
def withDeleteOutcomes (env : SetupEnv) (f g : String → Except String Unit) :
    SetupEnv :=
  { env with remoteUserDelete := f, remoteWorkspaceDelete := g }

/-- C2: a provisioning run that completes all steps successfully leaves in
the store, under its session id, a record whose `userId` and `workspaceSlug`
are the remotely created ones; the run performs exactly one store write —
the final commit itself — so the store stays at its initial state `st`
until the final step has succeeded, and under the freshness of the generated
session id (`hfresh`) no matching record exists at any earlier point. -/
theorem setup_success_commits (env : SetupEnv) (sessionId now : String)
    (st : FileState) (userId workspaceSlug : String)
    (h : (setupFunction env sessionId now st).outcome =
      SetupOutcome.success userId workspaceSlug)
    (hfresh : objGet (getAllSessions st) sessionId = none) :
    objGet (loadSessions (setupFunction env sessionId now st).finalState)
        sessionId = some ⟨userId, workspaceSlug, now⟩ ∧
    (setupFunction env sessionId now st).storeWrites =
      [(setupFunction env sessionId now st).finalState] ∧
    (setupFunction env sessionId now st).finalState =
      addSession now st sessionId userId workspaceSlug ∧
    objGet (getAllSessions st) sessionId = none := by
  obtain ⟨cu, cw, ad, au, tok, rud, rwd⟩ := env
  cases cu with
  | error e0 =>
    exact SetupOutcome.noConfusion
      (show SetupOutcome.failure "Creating user" e0 =
        SetupOutcome.success userId workspaceSlug from h)
  | ok uid =>
    cases cw with
    | error e0 =>
      exact SetupOutcome.noConfusion
        (show SetupOutcome.failure "Creating workspace" e0 =
          SetupOutcome.success userId workspaceSlug from h)
    | ok slug =>
      cases ad with
      | error e0 =>
        exact SetupOutcome.noConfusion
          (show SetupOutcome.failure "Adding documents to workspace" e0 =
            SetupOutcome.success userId workspaceSlug from h)
      | ok uad =>
        cases au with
        | error e0 =>
          exact SetupOutcome.noConfusion
            (show SetupOutcome.failure "Adding user to workspace" e0 =
              SetupOutcome.success userId workspaceSlug from h)
        | ok uau =>
          cases tok with
          | error e0 =>
            exact SetupOutcome.noConfusion
              (show SetupOutcome.failure "Getting SSO token" e0 =
                SetupOutcome.success userId workspaceSlug from h)
          | ok tk =>
            have h' : SetupOutcome.success uid slug =
                SetupOutcome.success userId workspaceSlug := h
            injection h' with h1 h2
            subst h1
            subst h2
            refine ⟨?_, rfl, rfl, hfresh⟩
            show objGet (loadSessions
              (saveSessions (objSet (loadSessions st) sessionId
                ⟨uid, slug, now⟩))) sessionId = some ⟨uid, slug, now⟩
            exact objGet_objSet (loadSessions st) sessionId ⟨uid, slug, now⟩

theorem setup_success_commits_witness :
    objGet (loadSessions (setupFunction
        ⟨Except.ok "u1", Except.ok "ws-1", Except.ok (), Except.ok (),
          Except.ok ("tok", "/sso/simple"),
          fun _ => Except.ok (), fun _ => Except.ok ()⟩
        "s1" "t0" FileState.absent).finalState) "s1" =
      some ⟨"u1", "ws-1", "t0"⟩ :=
  (setup_success_commits
    ⟨Except.ok "u1", Except.ok "ws-1", Except.ok (), Except.ok (),
      Except.ok ("tok", "/sso/simple"),
      fun _ => Except.ok (), fun _ => Except.ok ()⟩
    "s1" "t0" FileState.absent "u1" "ws-1" rfl rfl).1

/-- C3: a provisioning run that fails at any step persists no session record
(afterwards the store holds nothing under the run's session id); a deletion
request is issued for each remote resource created before the failing step
(the user's deletion whenever the user was created, the workspace's whenever
the workspace was created); both outcome and issued deletions are invariant
under every choice of remote outcomes for the two compensating deletions —
the deletions are independent of each other's outcome and no compensation
failure masks the surfaced error — and the surfaced failure carries the
failing step's name together with that step's original error. -/
theorem setup_failure_compensates (env : SetupEnv) (sessionId now : String)
    (st : FileState) (step e : String)
    (h : (setupFunction env sessionId now st).outcome =
      SetupOutcome.failure step e) :
    objGet (loadSessions (setupFunction env sessionId now st).finalState)
        sessionId = none ∧
    (∀ uid, env.createUserResult = Except.ok uid →
      HttpCall.userDelete uid ∈ (setupFunction env sessionId now st).httpDeletes) ∧
    (∀ uid slug, env.createUserResult = Except.ok uid →
      env.createWorkspaceResult = Except.ok slug →
      HttpCall.workspaceDelete slug ∈
        (setupFunction env sessionId now st).httpDeletes) ∧
    (∀ f g,
      (setupFunction (withDeleteOutcomes env f g) sessionId now st).outcome =
        SetupOutcome.failure step e ∧
      (setupFunction (withDeleteOutcomes env f g) sessionId now st).httpDeletes =
        (setupFunction env sessionId now st).httpDeletes) ∧
    ((env.createUserResult = Except.error e ∧ step = "Creating user") ∨
     (env.createWorkspaceResult = Except.error e ∧ step = "Creating workspace") ∨
     (env.addDocumentsResult = Except.error e ∧
       step = "Adding documents to workspace") ∨
     (env.addUserResult = Except.error e ∧ step = "Adding user to workspace") ∨
     (env.ssoTokenResult = Except.error e ∧ step = "Getting SSO token")) := by
  obtain ⟨cu, cw, ad, au, tok, rud, rwd⟩ := env
  cases cu with
  | error e0 =>
    have h' : SetupOutcome.failure "Creating user" e0 =
        SetupOutcome.failure step e := h
    injection h' with h1 h2
    subst h1
    subst h2
    refine ⟨objGet_objDelete_self (loadSessions st) sessionId, ?_, ?_,
      fun f g => ⟨rfl, rfl⟩, Or.inl ⟨rfl, rfl⟩⟩
    · intro uid' huid
      simp at huid
    · intro uid' slug' huid hslug
      simp at huid
  | ok uid =>
    cases cw with
    | error e0 =>
      have h' : SetupOutcome.failure "Creating workspace" e0 =
          SetupOutcome.failure step e := h
      injection h' with h1 h2
      subst h1
      subst h2
      refine ⟨objGet_objDelete_self (loadSessions st) sessionId, ?_, ?_,
        fun f g => ⟨rfl, rfl⟩, Or.inr (Or.inl ⟨rfl, rfl⟩)⟩
      · intro uid' huid
        injection huid with hu
        subst hu
        exact List.mem_singleton_self _
      · intro uid' slug' huid hslug
        simp at hslug
    | ok slug =>
      cases ad with
      | error e0 =>
        have h' : SetupOutcome.failure "Adding documents to workspace" e0 =
            SetupOutcome.failure step e := h
        injection h' with h1 h2
        subst h1
        subst h2
        refine ⟨objGet_objDelete_self (loadSessions st) sessionId, ?_, ?_,
          fun f g => ⟨rfl, rfl⟩, Or.inr (Or.inr (Or.inl ⟨rfl, rfl⟩))⟩
        · intro uid' huid
          injection huid with hu
          subst hu
          exact List.mem_cons_of_mem _ (List.mem_singleton_self _)
        · intro uid' slug' huid hslug
          injection hslug with hs
          subst hs
          exact List.mem_cons_self _ _
      | ok uad =>
        cases au with
        | error e0 =>
          have h' : SetupOutcome.failure "Adding user to workspace" e0 =
              SetupOutcome.failure step e := h
          injection h' with h1 h2
          subst h1
          subst h2
          refine ⟨objGet_objDelete_self (loadSessions st) sessionId, ?_, ?_,
            fun f g => ⟨rfl, rfl⟩, Or.inr (Or.inr (Or.inr (Or.inl ⟨rfl, rfl⟩)))⟩
          · intro uid' huid
            injection huid with hu
            subst hu
            exact List.mem_cons_of_mem _ (List.mem_singleton_self _)
          · intro uid' slug' huid hslug
            injection hslug with hs
            subst hs
            exact List.mem_cons_self _ _
        | ok uau =>
          cases tok with
          | error e0 =>
            have h' : SetupOutcome.failure "Getting SSO token" e0 =
                SetupOutcome.failure step e := h
            injection h' with h1 h2
            subst h1
            subst h2
            refine ⟨objGet_objDelete_self (loadSessions st) sessionId, ?_, ?_,
              fun f g => ⟨rfl, rfl⟩,
              Or.inr (Or.inr (Or.inr (Or.inr ⟨rfl, rfl⟩)))⟩
            · intro uid' huid
              injection huid with hu
              subst hu
              exact List.mem_cons_of_mem _ (List.mem_singleton_self _)
            · intro uid' slug' huid hslug
              injection hslug with hs
              subst hs
              exact List.mem_cons_self _ _
          | ok tk =>
            exact SetupOutcome.noConfusion
              (show SetupOutcome.success uid slug =
                SetupOutcome.failure step e from h)

theorem setup_failure_compensates_witness :
    objGet (loadSessions (setupFunction
        ⟨Except.ok "u1", Except.error "boom", Except.ok (), Except.ok (),
          Except.ok ("tok", "/sso/simple"),
          fun _ => Except.error "cannot delete user",
          fun _ => Except.error "cannot delete workspace"⟩
        "s1" "t0" FileState.absent).finalState) "s1" = none :=
  (setup_failure_compensates
    ⟨Except.ok "u1", Except.error "boom", Except.ok (), Except.ok (),
      Except.ok ("tok", "/sso/simple"),
      fun _ => Except.error "cannot delete user",
      fun _ => Except.error "cannot delete workspace"⟩
    "s1" "t0" FileState.absent "Creating workspace" "boom" rfl).1

/-- One entry of the `errors` array of the cleanup summary: the session id,
the reported error text, and the two per-resource outcome flags. -/
structure CleanupError where
  sessionId : String
  error : String
  workspaceDeleted : Bool
  userDeleted : Bool
deriving Repr, DecidableEq

/-- The summary `cleanupSessions` returns: total sessions considered,
deleted count, failed count, and per-failure details. -/
structure CleanupResults where
  total : Nat
  deleted : Nat
  failed : Nat
  errors : List CleanupError
deriving Repr, DecidableEq

/-- Accumulated effect of the per-session loop of `cleanupSessions`. -/
structure LoopAcc where
  deleted : Nat
  failed : Nat
  errors : List CleanupError
  finalState : FileState
  httpDeletes : List HttpCall
deriving Repr, DecidableEq

/-- The per-session loop of `cleanupSessions` from `src/workspace.js`: for
each stored session, call `deleteWorkspace` then `deleteUser` (both always
attempted, in that order); when both return `true`, remove the session from
the store and count it deleted; otherwise leave the store untouched, count
the session failed, and record its id with both outcome flags. `remoteWs`
and `remoteUser` give the remote outcome each deletion request would see;
the store file state is threaded because `removeSession` rewrites it. -/
def cleanupLoop (remoteWs remoteUser : String → Except String Unit) :
    List (String × SessionRecord) → FileState → LoopAcc
  | [], st => ⟨0, 0, [], st, []⟩
  | (sessionId, r) :: rest, st =>
    let ws := deleteWorkspace r.workspaceSlug (remoteWs r.workspaceSlug)
    let us := deleteUser r.userId (remoteUser r.userId)
    if ws.2 && us.2 then
      let acc := cleanupLoop remoteWs remoteUser rest (removeSession st sessionId)
      ⟨acc.deleted + 1, acc.failed, acc.errors, acc.finalState,
        ws.1 ++ us.1 ++ acc.httpDeletes⟩
    else
      let acc := cleanupLoop remoteWs remoteUser rest st
      ⟨acc.deleted, acc.failed + 1,
        ⟨sessionId, "Partial deletion failure", ws.2, us.2⟩ :: acc.errors,
        acc.finalState, ws.1 ++ us.1 ++ acc.httpDeletes⟩

/-- Result of one run of the reconciler: the returned summary, the final
store file state, and the deletion HTTP requests issued. -/
structure CleanupRun where
  results : CleanupResults
  finalState : FileState
  httpDeletes : List HttpCall
deriving Repr, DecidableEq

/-- `cleanupSessions()` from `src/workspace.js` — the cleanup reconciler:
load all stored sessions and run the per-session loop over them. -/
def cleanupSessions (remoteWs remoteUser : String → Except String Unit)
    (st : FileState) : CleanupRun :=
  let sessions := loadSessions st
  let acc := cleanupLoop remoteWs remoteUser sessions st
  { results := ⟨sessions.length, acc.deleted, acc.failed, acc.errors⟩,
    finalState := acc.finalState,
    httpDeletes := acc.httpDeletes }

/-- Whether the reconciler's two deletions both succeed for one stored
session, given the remote outcomes. -/
def sessionCleanupOk (remoteWs remoteUser : String → Except String Unit)
    (p : String × SessionRecord) : Bool :=
  (deleteWorkspace p.2.workspaceSlug (remoteWs p.2.workspaceSlug)).2 &&
  (deleteUser p.2.userId (remoteUser p.2.userId)).2

theorem cleanupLoop_cons (rw ru : String → Except String Unit)
    (sid : String) (r : SessionRecord) (rest : List (String × SessionRecord))
    (st : FileState) :
    cleanupLoop rw ru ((sid, r) :: rest) st =
      if ((deleteWorkspace r.workspaceSlug (rw r.workspaceSlug)).2 &&
          (deleteUser r.userId (ru r.userId)).2) = true then
        ⟨(cleanupLoop rw ru rest (removeSession st sid)).deleted + 1,
          (cleanupLoop rw ru rest (removeSession st sid)).failed,
          (cleanupLoop rw ru rest (removeSession st sid)).errors,
          (cleanupLoop rw ru rest (removeSession st sid)).finalState,
          HttpCall.workspaceDelete r.workspaceSlug ::
            HttpCall.userDelete r.userId ::
              (cleanupLoop rw ru rest (removeSession st sid)).httpDeletes⟩
      else
        ⟨(cleanupLoop rw ru rest st).deleted,
          (cleanupLoop rw ru rest st).failed + 1,
          ⟨sid, "Partial deletion failure",
            (deleteWorkspace r.workspaceSlug (rw r.workspaceSlug)).2,
            (deleteUser r.userId (ru r.userId)).2⟩ ::
              (cleanupLoop rw ru rest st).errors,
          (cleanupLoop rw ru rest st).finalState,
          HttpCall.workspaceDelete r.workspaceSlug ::
            HttpCall.userDelete r.userId ::
              (cleanupLoop rw ru rest st).httpDeletes⟩ := rfl

theorem cleanupLoop_counts (rw ru : String → Except String Unit) :
    ∀ (l : List (String × SessionRecord)) (st : FileState),
      (cleanupLoop rw ru l st).deleted =
        (l.filter (sessionCleanupOk rw ru)).length ∧
      (cleanupLoop rw ru l st).failed =
        (l.filter (fun p => ! sessionCleanupOk rw ru p)).length ∧
      (cleanupLoop rw ru l st).errors =
        (l.filter (fun p => ! sessionCleanupOk rw ru p)).map
          (fun p => ⟨p.1, "Partial deletion failure",
            (deleteWorkspace p.2.workspaceSlug (rw p.2.workspaceSlug)).2,
            (deleteUser p.2.userId (ru p.2.userId)).2⟩) ∧
      (cleanupLoop rw ru l st).httpDeletes =
        l.flatMap (fun p =>
          [HttpCall.workspaceDelete p.2.workspaceSlug,
            HttpCall.userDelete p.2.userId]) := by
  intro l
  induction l with
  | nil => intro st; refine ⟨rfl, rfl, rfl, rfl⟩
  | cons p rest ih =>
    intro st
    obtain ⟨sid, r⟩ := p
    rw [cleanupLoop_cons]
    by_cases hok : sessionCleanupOk rw ru (sid, r) = true
    · have hc : ((deleteWorkspace r.workspaceSlug (rw r.workspaceSlug)).2 &&
          (deleteUser r.userId (ru r.userId)).2) = true := hok
      rw [if_pos hc]
      have hnot : (! sessionCleanupOk rw ru (sid, r)) = false := by
        rw [hok]; rfl
      obtain ⟨ih1, ih2, ih3, ih4⟩ := ih (removeSession st sid)
      refine ⟨?_, ?_, ?_, ?_⟩
      · rw [List.filter_cons_of_pos hok]
        simpa using ih1
      · rw [List.filter_cons_of_neg (by simp [hok])]
        simpa using ih2
      · rw [List.filter_cons_of_neg (by simp [hok])]
        simpa using ih3
      · simpa using ih4
    · have hc : ¬(((deleteWorkspace r.workspaceSlug (rw r.workspaceSlug)).2 &&
          (deleteUser r.userId (ru r.userId)).2) = true) := hok
      rw [if_neg hc]
      have hok' : sessionCleanupOk rw ru (sid, r) = false :=
        Bool.eq_false_iff.mpr hok
      obtain ⟨ih1, ih2, ih3, ih4⟩ := ih st
      refine ⟨?_, ?_, ?_, ?_⟩
      · rw [List.filter_cons_of_neg (by simp [hok'])]
        simpa using ih1
      · rw [List.filter_cons_of_pos (by simp [hok'])]
        simpa using ih2
      · rw [List.filter_cons_of_pos (by simp [hok'])]
        simpa using ih3
      · simpa using ih4

theorem cleanupLoop_finalState (rw ru : String → Except String Unit) :
    ∀ (l : List (String × SessionRecord)) (st : FileState),
      loadSessions (cleanupLoop rw ru l st).finalState =
        (loadSessions st).filter
          (fun p => ! ((l.filter (sessionCleanupOk rw ru)).map Prod.fst).contains p.1) := by
  intro l
  induction l with
  | nil => intro st; simp [cleanupLoop]
  | cons p rest ih =>
    intro st
    obtain ⟨sid, r⟩ := p
    rw [cleanupLoop_cons]
    by_cases hok : sessionCleanupOk rw ru (sid, r) = true
    · have hc : ((deleteWorkspace r.workspaceSlug (rw r.workspaceSlug)).2 &&
          (deleteUser r.userId (ru r.userId)).2) = true := hok
      rw [if_pos hc]
      show loadSessions (cleanupLoop rw ru rest (removeSession st sid)).finalState = _
      rw [ih (removeSession st sid)]
      have hload : loadSessions (removeSession st sid) =
          (loadSessions st).filter (fun p => ! (p.1 == sid)) := rfl
      rw [hload, List.filter_filter, List.filter_cons_of_pos hok]
      apply List.filter_congr
      intro a _
      rw [List.map_cons, List.contains_cons]
      cases h1 : a.1 == sid <;> simp [h1]
    · have hc : ¬(((deleteWorkspace r.workspaceSlug (rw r.workspaceSlug)).2 &&
          (deleteUser r.userId (ru r.userId)).2) = true) := hok
      rw [if_neg hc]
      show loadSessions (cleanupLoop rw ru rest st).finalState = _
      rw [ih st, List.filter_cons_of_neg hok]

theorem contains_filter_keys (rw ru : String → Except String Unit)
    (m : List (String × SessionRecord)) (hnd : (m.map Prod.fst).Nodup)
    (p : String × SessionRecord) (hp : p ∈ m) :
    ((m.filter (sessionCleanupOk rw ru)).map Prod.fst).contains p.1 =
      sessionCleanupOk rw ru p := by
  by_cases hok : sessionCleanupOk rw ru p = true
  · rw [hok]
    have hmem : p.1 ∈ (m.filter (sessionCleanupOk rw ru)).map Prod.fst :=
      List.mem_map.mpr ⟨p, List.mem_filter.mpr ⟨hp, hok⟩, rfl⟩
    exact List.elem_iff.mpr hmem
  · rw [Bool.eq_false_iff.mpr hok]
    rw [Bool.eq_false_iff]
    intro hcon
    obtain ⟨q, hq, hq1⟩ := List.mem_map.mp (List.elem_iff.mp hcon)
    have hqm : q ∈ m := (List.mem_filter.mp hq).1
    have hqok : sessionCleanupOk rw ru q = true := (List.mem_filter.mp hq).2
    have hqp : q = p := List.inj_on_of_nodup_map hnd hqm hp hq1
    rw [hqp] at hqok
    exact hok hqok

/-- C1: for every reconciler run over a store whose session ids are
distinct: the summary's total is the number of sessions considered; the
reconciler attempts `deleteWorkspace` then `deleteUser` for every stored
session (the issued requests are exactly workspace-then-user per session, in
order); a session is removed from the store and counted deleted exactly when
both deletions succeed; when either deletion fails the session is counted
failed, its record is left in the store unchanged, and the errors list
carries, for each failure, the session id together with both per-resource
outcome flags. -/
theorem cleanupSessions_spec (rw ru : String → Except String Unit)
    (st : FileState) (hnd : ((loadSessions st).map Prod.fst).Nodup) :
    (cleanupSessions rw ru st).results.total = (loadSessions st).length ∧
    (cleanupSessions rw ru st).results.deleted =
      ((loadSessions st).filter (sessionCleanupOk rw ru)).length ∧
    (cleanupSessions rw ru st).results.failed =
      ((loadSessions st).filter (fun p => ! sessionCleanupOk rw ru p)).length ∧
    (cleanupSessions rw ru st).results.errors =
      ((loadSessions st).filter (fun p => ! sessionCleanupOk rw ru p)).map
        (fun p => ⟨p.1, "Partial deletion failure",
          (deleteWorkspace p.2.workspaceSlug (rw p.2.workspaceSlug)).2,
          (deleteUser p.2.userId (ru p.2.userId)).2⟩) ∧
    (cleanupSessions rw ru st).httpDeletes =
      (loadSessions st).flatMap (fun p =>
        [HttpCall.workspaceDelete p.2.workspaceSlug,
          HttpCall.userDelete p.2.userId]) ∧
    loadSessions (cleanupSessions rw ru st).finalState =
      (loadSessions st).filter (fun p => ! sessionCleanupOk rw ru p) := by
  obtain ⟨h1, h2, h3, h4⟩ := cleanupLoop_counts rw ru (loadSessions st) st
  refine ⟨rfl, h1, h2, h3, h4, ?_⟩
  rw [show loadSessions (cleanupSessions rw ru st).finalState =
    loadSessions (cleanupLoop rw ru (loadSessions st) st).finalState from rfl]
  rw [cleanupLoop_finalState rw ru (loadSessions st) st]
  apply List.filter_congr
  intro p hp
  show (! ((((loadSessions st).filter (sessionCleanupOk rw ru)).map
    Prod.fst).contains p.1)) = (! sessionCleanupOk rw ru p)
  rw [contains_filter_keys rw ru (loadSessions st) hnd p hp]

theorem cleanupSessions_spec_witness :
    loadSessions (cleanupSessions
        (fun s => if s == "w2" then Except.error "nope" else Except.ok ())
        (fun _ => Except.ok ())
        (FileState.stored [("s1", ⟨"u1", "w1", "t1"⟩), ("s2", ⟨"u2", "w2", "t2"⟩)])).finalState =
      (loadSessions (FileState.stored
        [("s1", ⟨"u1", "w1", "t1"⟩), ("s2", ⟨"u2", "w2", "t2"⟩)])).filter
        (fun p => ! sessionCleanupOk
          (fun s => if s == "w2" then Except.error "nope" else Except.ok ())
          (fun _ => Except.ok ()) p) :=
  (cleanupSessions_spec
    (fun s => if s == "w2" then Except.error "nope" else Except.ok ())
    (fun _ => Except.ok ())
    (FileState.stored [("s1", ⟨"u1", "w1", "t1"⟩), ("s2", ⟨"u2", "w2", "t2"⟩)])
    (by decide)).2.2.2.2.2

/-- C7: when a reconciliation run succeeds on every stored session (both
deletions succeed each time), it removes every session it considered,
leaving the store empty; a second run on the resulting store state
therefore considers zero sessions and reports zero newly-deleted sessions,
whatever remote outcomes its own deletion attempts would see. -/
theorem cleanupSessions_idempotent (rw ru rw' ru' : String → Except String Unit)
    (st : FileState)
    (h : ∀ p ∈ loadSessions st, sessionCleanupOk rw ru p = true) :
    loadSessions (cleanupSessions rw ru st).finalState = [] ∧
    (cleanupSessions rw' ru' (cleanupSessions rw ru st).finalState).results.deleted = 0 ∧
    (cleanupSessions rw' ru' (cleanupSessions rw ru st).finalState).results.total = 0 := by
  have hempty : loadSessions (cleanupSessions rw ru st).finalState = [] := by
    rw [show loadSessions (cleanupSessions rw ru st).finalState =
      loadSessions (cleanupLoop rw ru (loadSessions st) st).finalState from rfl]
    rw [cleanupLoop_finalState rw ru (loadSessions st) st]
    refine List.filter_eq_nil_iff.mpr ?_
    intro p hp hcon
    rw [List.filter_eq_self.mpr h] at hcon
    have hmem : p.1 ∈ (loadSessions st).map Prod.fst :=
      List.mem_map.mpr ⟨p, hp, rfl⟩
    have hcont : ((loadSessions st).map Prod.fst).contains p.1 = true :=
      List.elem_iff.mpr hmem
    rw [hcont] at hcon
    simp at hcon
  refine ⟨hempty, ?_, ?_⟩
  · show (cleanupLoop rw' ru'
      (loadSessions (cleanupSessions rw ru st).finalState)
      (cleanupSessions rw ru st).finalState).deleted = 0
    rw [hempty]
    rfl
  · show (loadSessions (cleanupSessions rw ru st).finalState).length = 0
    rw [hempty]
    rfl

theorem cleanupSessions_idempotent_witness :
    (cleanupSessions (fun _ => Except.error "down") (fun _ => Except.error "down")
      (cleanupSessions (fun _ => Except.ok ()) (fun _ => Except.ok ())
        (FileState.stored [("s1", ⟨"u1", "w1", "t1"⟩)])).finalState).results.deleted = 0 :=
  (cleanupSessions_idempotent (fun _ => Except.ok ()) (fun _ => Except.ok ())
    (fun _ => Except.error "down") (fun _ => Except.error "down")
    (FileState.stored [("s1", ⟨"u1", "w1", "t1"⟩)]) (by decide)).2.1

end Sso
